import Mathlib

/-!
# notify-gateway: Alert Dispatch Engine — verification development

Shallow embedding of the dispatch core of the notify-gateway repository
(`src/config.js`, the dispatcher part of `src/index.js`, and `channels.js`)
together with proofs about its deduplication cache, channel routing,
message rendering, retry delivery and batch dispatch coordinator.

Modelling conventions:
* JavaScript strings are modelled by Lean `String`; character-level
  operations (`slice`, `trim`, `toLowerCase`, `split`) are defined over
  `String.data` (the underlying `List Char`), which matches the
  code-unit view the JS code relies on.
* JS `undefined`/missing object fields are `Option.none`; the JS
  truthiness tests used by the code (`x || y`, `if (x)`) are modelled
  explicitly: a string is truthy iff non-empty, a number is truthy iff
  non-zero.
* JS `Map` (insertion-ordered, unique keys) is modelled by an
  association list `List (String × Int)` with order-preserving
  `set`/`delete`/iteration.
* Timestamps (`Date.now()` and explicit `now` arguments) are `Int`
  milliseconds.
* The outbound HTTP transport and the sha256/JSON serialization
  primitives (Node stdlib collaborators, not repository logic) are
  abstracted as oracle parameters: a network outcome per attempt, and a
  hash function of the `(labels, annotations, startsAt)` triple.
-/

namespace NG

/-! ## JS value helpers -/

/-- Truthiness of an optional JS string: present and non-empty. -/
def jsTruthyStr (o : Option String) : Bool :=
  match o with
  | some s => s ≠ ""
  | none => false

/-- JS `a || b` on optional strings: keep `a` when truthy, else `b`. -/
def jsOrStr (a b : Option String) : Option String :=
  match a with
  | some s => if s ≠ "" then some s else b
  | none => b

/-- JS `String(a || d)` for an optional string `a` and string default `d`. -/
def jsOrStrD (a : Option String) (d : String) : String :=
  match a with
  | some s => if s ≠ "" then s else d
  | none => d

/-- Whitespace recognized by the model of JS `String.prototype.trim`. -/
def isWsChar (c : Char) : Bool :=
  c = ' ' || c = '\t' || c = '\n' || c = '\r'

/-- Model of JS `trim`: strip leading and trailing whitespace. -/
def jsTrim (s : String) : String :=
  ⟨((s.data.dropWhile isWsChar).reverse.dropWhile isWsChar).reverse⟩

/-- Model of JS `toLowerCase` (ASCII, which is all the code compares). -/
def jsToLower (s : String) : String :=
  ⟨s.data.map Char.toLower⟩

/-- Model of JS `toUpperCase` (ASCII). -/
def jsToUpper (s : String) : String :=
  ⟨s.data.map Char.toUpper⟩

/-- Model of JS `split(",")` over the character list. -/
def splitCommaAux : List Char → List Char → List String
  | [], acc => [⟨acc.reverse⟩]
  | c :: rest, acc =>
      if c = ',' then ⟨acc.reverse⟩ :: splitCommaAux rest []
      else splitCommaAux rest (c :: acc)

/-- JS `s.split(",")`. -/
def splitComma (s : String) : List String :=
  splitCommaAux s.data []

/-- Model of JS `slice(0, e)` (a negative `e` counts from the end). -/
def jsSlice0 (s : String) (e : Int) : String :=
  let len : Int := s.data.length
  let cut : Int := if e < 0 then max (len + e) 0 else min e len
  ⟨s.data.take cut.toNat⟩

/-! ## Labels / annotations

JS objects holding string values, in insertion order; `getEntry` is
property access (`obj.key`), returning the first binding. -/

abbrev Labels := List (String × String)

/-- JS property access `obj[k]` on a labels object. -/
def getEntry (ls : Labels) (k : String) : Option String :=
  (ls.find? (fun p => p.1 = k)).map (·.2)

/-! ## `src/config.js` -/

/-- `VALID_CHANNELS` from config.js. -/
def VALID_CHANNELS : List String := ["tg", "wecom", "serverchan"]

/-- `parseCsvList(raw)` (fallback `[]`): split on commas, trim then
lowercase each item, drop empty items.  `raw = none` models a missing or
non-string value. -/
def parseCsvList (raw : Option String) : List String :=
  match raw with
  | none => []
  | some s =>
      if s = "" then []
      else ((splitComma s).map (fun item => jsToLower (jsTrim item))).filter (fun item => item ≠ "")

/-- Fuel-driven recursion behind `jsUniq` (structural, so that the
kernel can evaluate it; the fuel is always at least the list length). -/
def jsUniqFuel : Nat → List String → List String
  | 0, _ => []
  | fuel + 1, l =>
      match l with
      | [] => []
      | x :: xs => x :: jsUniqFuel fuel (xs.filter (fun y => y ≠ x))

/-- `uniq(items)`: JS `[...new Set(items)]`, keeping first occurrences. -/
def jsUniq (l : List String) : List String :=
  jsUniqFuel l.length l

/-- `normalizeChannels(items)` from config.js. -/
def normalizeChannels (items : List String) : List String :=
  jsUniq (items.filter (fun item => decide (item ∈ VALID_CHANNELS)))

/-- `parseChannels(raw)` from config.js, for the string/undefined inputs
reachable from `resolveChannels` (the array branch is used only by the
ingest-event normalizer). -/
def parseChannels (raw : Option String) : List String :=
  match raw with
  | none => []
  | some s => if s = "" then [] else normalizeChannels (parseCsvList (some s))

/-- `isTruthy(raw)` from config.js, on an optional string label value. -/
def isTruthy (raw : Option String) : Bool :=
  match raw with
  | none => false
  | some s =>
      let normalized := jsToLower (jsTrim s)
      normalized = "1" || normalized = "true" || normalized = "yes" || normalized = "on"

/-- `normalizeSeverity(raw)` from config.js:
`String(raw || "info").toLowerCase().trim()`, clamped to the valid set. -/
def normalizeSeverity (raw : Option String) : String :=
  let normalized := jsTrim (jsToLower (jsOrStrD raw "info"))
  if normalized = "critical" ∨ normalized = "warning" ∨ normalized = "info" then normalized
  else "info"

/-- `normalizeStatus(raw)` from config.js. -/
def normalizeStatus (raw : Option String) : String :=
  let normalized := jsTrim (jsToLower (jsOrStrD raw "firing"))
  if normalized = "resolved" then "resolved" else "firing"

/-- The per-severity route table (`routeBySeverity` built by `loadConfig`). -/
structure RouteTable where
  critical : List String
  warning : List String
  info : List String
deriving Repr, DecidableEq

/-- `config.routeBySeverity[severity] || []`; `severity` is always the
output of `normalizeSeverity`, and unknown keys fall back to `[]`. -/
def routeFor (rt : RouteTable) (severity : String) : List String :=
  if severity = "critical" then rt.critical
  else if severity = "warning" then rt.warning
  else if severity = "info" then rt.info
  else []

/-- `config.channelCreds` ("" models a missing environment variable). -/
structure ChannelCreds where
  tgBotToken : String
  tgChatId : String
  wecomWebhookUrl : String
  serverchanSendKey : String
deriving Repr, DecidableEq

/-- The slice of the loaded configuration the dispatch path reads. -/
structure Config where
  enabledChannels : List String
  routeBySeverity : RouteTable
  retryScheduleMs : List Int
  channelCreds : ChannelCreds
deriving Repr, DecidableEq

/-! ## Alert payloads (`dispatcher` part of `src/index.js`) -/

/-- A canonical alert as consumed by the dispatch path. -/
structure Alert where
  labels : Labels
  annotations : Labels
  startsAt : Option String
  status : Option String
  fingerprint : Option String
deriving Repr, DecidableEq

/-- An alertmanager webhook payload; `alerts = none` models an `alerts`
field that is not an array. -/
structure Payload where
  status : Option String
  alerts : Option (List Alert)

/-! ## `DedupeCache` -/

/-- `DedupeCache`: the JS `Map` is an insertion-ordered association
list from key to last-seen timestamp. -/
structure DedupeCache where
  windowMs : Int
  maxEntries : Nat
  map : List (String × Int)
deriving Repr, DecidableEq

/-- JS `Map.get`. -/
def mapGet (m : List (String × Int)) (k : String) : Option Int :=
  (m.find? (fun p => p.1 = k)).map (·.2)

/-- JS `Map.set`: overwrite in place when the key exists, else append. -/
def mapSet (m : List (String × Int)) (k : String) (v : Int) : List (String × Int) :=
  match m with
  | [] => [(k, v)]
  | p :: rest => if p.1 = k then (k, v) :: rest else p :: mapSet rest k v

/-- JS `Map.delete`. -/
def mapDelete (m : List (String × Int)) (k : String) : List (String × Int) :=
  m.filter (fun p => p.1 ≠ k)

/-- The truthiness test `existing && now - existing < this.windowMs`
(a stored timestamp `0` is falsy in JS). -/
def isFreshHit (existing : Option Int) (now window : Int) : Bool :=
  match existing with
  | some ts => decide (ts ≠ 0) && decide (now - ts < window)
  | none => false

/-- The fallback eviction of `shouldDrop`: when still over capacity,
delete the first (oldest-inserted) key — but only when that key is
truthy (`if (oldestKey) this.map.delete(oldestKey)`; the empty string is
falsy in JS). -/
def evictOldest (maxEntries : Nat) (l : List (String × Int)) : List (String × Int) :=
  if l.length > maxEntries then
    match l.head? with
    | some (oldestKey, _) => if oldestKey ≠ "" then mapDelete l oldestKey else l
    | none => l
  else l

/-- The capacity-bound block of `shouldDrop` (`if (this.map.size >
this.maxEntries) { ... }`): purge entries of age `≥ windowMs`, then
apply the fallback eviction. -/
def evictOver (maxEntries : Nat) (windowMs now : Int) (m1 : List (String × Int)) :
    List (String × Int) :=
  if m1.length > maxEntries then
    evictOldest maxEntries (m1.filter (fun p => decide (now - p.2 < windowMs)))
  else m1

/-- `DedupeCache.shouldDrop(key, now)`: returns the dropped flag and the
updated cache. On admission it records `lastSeen = now` and applies the
capacity-bound eviction. -/
def shouldDrop (c : DedupeCache) (key : String) (now : Int) : Bool × DedupeCache :=
  if isFreshHit (mapGet c.map key) now c.windowMs then
    (true, c)
  else
    (false, { c with map := evictOver c.maxEntries c.windowMs now (mapSet c.map key now) })

/-! ## Fingerprints and message rendering -/

/-- The content hash of `(labels, annotations, startsAt)`;
`sha256(JSON.stringify(...))` is a Node-stdlib collaborator abstracted
as a function parameter `hash` throughout. -/
abbrev HashFn := Labels → Labels → String → String

/-- `fallbackFingerprint(alert)`: hash over labels, annotations and
`alert.startsAt || ""`. -/
def fallbackFingerprint (hash : HashFn) (a : Alert) : String :=
  hash a.labels a.annotations (jsOrStrD a.startsAt "")

/-- `String(alert.fingerprint || alert.labels?.notify_fingerprint ||
fallbackFingerprint(alert))` from `dispatchAlertmanagerPayload`. -/
def resolveFingerprint (hash : HashFn) (a : Alert) : String :=
  jsOrStrD (jsOrStr a.fingerprint (getEntry a.labels "notify_fingerprint"))
    (fallbackFingerprint hash a)

/-- `truncate(raw, maxLen)` from the dispatcher. -/
def truncate (raw : String) (maxLen : Nat) : String :=
  if raw.data.length ≤ maxLen then raw
  else jsSlice0 raw ((maxLen : Int) - 3) ++ "..."

/-- `formatLabels(labels)`: render every label except the internal
routing keys, or `"-"` when none remain. -/
def formatLabels (labels : Labels) : String :=
  let entries := labels.filter (fun p => p.1 ≠ "notify_channels" && p.1 ≠ "notify_mute")
  if entries.isEmpty then "-"
  else String.intercalate ", " (entries.map (fun p => p.1 ++ "=" ++ p.2))

/-- A rendered message. -/
structure Message where
  title : String
  body : String
  severity : String
  status : String
deriving Repr, DecidableEq

/-- The title string of `buildMessage` before truncation. -/
def rawTitle (a : Alert) (payloadStatus : Option String) : String :=
  let status := normalizeStatus (jsOrStr a.status payloadStatus)
  let severity := normalizeSeverity (getEntry a.labels "severity")
  let source := jsOrStrD (getEntry a.labels "source") "unknown"
  let alertname := jsOrStrD (getEntry a.labels "alertname") "GatewayEvent"
  "[" ++ jsToUpper severity ++ "][" ++ jsToUpper status ++ "][" ++ source ++ "] " ++ alertname

/-- The body string of `buildMessage` before truncation. -/
def rawBody (a : Alert) : String :=
  let summary :=
    jsOrStrD (jsOrStr (getEntry a.annotations "summary") (getEntry a.annotations "description"))
      "(no summary)"
  let description := jsOrStrD (getEntry a.annotations "description") ""
  let lines :=
    [some ("summary: " ++ summary),
     if description ≠ "" then some ("description: " ++ description) else none,
     some ("startsAt: " ++ jsOrStrD a.startsAt "-"),
     some ("labels: " ++ formatLabels a.labels)]
  String.intercalate "\n" (lines.filterMap id)

/-- `buildMessage(alert, payloadStatus)` from the dispatcher. -/
def buildMessage (a : Alert) (payloadStatus : Option String) : Message :=
  { title := truncate (rawTitle a payloadStatus) 180
    body := truncate (rawBody a) 3500
    severity := normalizeSeverity (getEntry a.labels "severity")
    status := normalizeStatus (jsOrStr a.status payloadStatus) }

/-! ## `resolveChannels` -/

/-- `resolveChannels(alert, config)` from the dispatcher. -/
def resolveChannels (a : Alert) (cfg : Config) : List String :=
  if isTruthy (getEntry a.labels "notify_mute") || isTruthy (getEntry a.annotations "notify_mute") then
    []
  else
    let overridden :=
      parseChannels (jsOrStr (getEntry a.labels "notify_channels") (getEntry a.annotations "notify_channels"))
    if overridden.length > 0 then
      overridden.filter (fun channel => decide (channel ∈ cfg.enabledChannels))
    else
      routeFor cfg.routeBySeverity (normalizeSeverity (getEntry a.labels "severity"))

/-! ## Channel senders (`channels.js`)

The HTTP request and the two-layer response check (transport status plus
application success field) are collaborator calls; their combined
outcome for one attempt is abstracted as a `NetResult` oracle. -/

/-- Outcome of one outbound call after the channel's response checks:
either the send succeeded, or some transport/protocol/application error
was thrown. -/
inductive NetResult where
  | okSend : NetResult
  | fail : String → NetResult
deriving Repr, DecidableEq

/-- The `{skipped, reason}` result object of a channel send. -/
structure SendResult where
  skipped : Bool
  reason : Option String
deriving Repr, DecidableEq

/-- `sendTg(message, config)`: credential check, then the abstracted call. -/
def sendTg (net : NetResult) (cfg : Config) : Except String SendResult :=
  if cfg.channelCreds.tgBotToken = "" ∨ cfg.channelCreds.tgChatId = "" then
    .ok ⟨true, some "telegram credentials missing"⟩
  else
    match net with
    | .okSend => .ok ⟨false, none⟩
    | .fail e => .error e

/-- `sendWecom(message, config)`. -/
def sendWecom (net : NetResult) (cfg : Config) : Except String SendResult :=
  if cfg.channelCreds.wecomWebhookUrl = "" then
    .ok ⟨true, some "wecom webhook missing"⟩
  else
    match net with
    | .okSend => .ok ⟨false, none⟩
    | .fail e => .error e

/-- `sendServerchan(message, config)`. -/
def sendServerchan (net : NetResult) (cfg : Config) : Except String SendResult :=
  if cfg.channelCreds.serverchanSendKey = "" then
    .ok ⟨true, some "serverchan sendkey missing"⟩
  else
    match net with
    | .okSend => .ok ⟨false, none⟩
    | .fail e => .error e

/-- `sendByChannel(channel, message, config)`: dispatch on the channel
identifier; anything outside the three known channels is skipped. -/
def sendByChannel (net : NetResult) (channel : String) (cfg : Config) : Except String SendResult :=
  if channel = "tg" then sendTg net cfg
  else if channel = "wecom" then sendWecom net cfg
  else if channel = "serverchan" then sendServerchan net cfg
  else .ok ⟨true, some ("unsupported channel: " ++ channel)⟩

/-! ## `sendWithRetry` -/

/-- One step of the `for (attempt = 0; attempt <= delays.length; ...)`
loop of `sendWithRetry`, as structural recursion on the remaining
attempt budget (`fuel = delays.length + 1 - attempt`, so `fuel = 0`
exactly when the loop exits and the last error is rethrown). Returns
the result, the number of send invocations, and the list of slept
delays (`if (delay) await sleep(delay)`; a `0` or missing delay is
falsy and is not slept). -/
def retryGo (delays : List Int) (send : Nat → Except String SendResult) :
    Nat → Nat → Option String → Except String SendResult × Nat × List Int
  | 0, _, lastError =>
      (.error (lastError.getD "send failed without explicit error"), 0, [])
  | fuel + 1, attempt, _ =>
      match send attempt with
      | .ok r => (.ok r, 1, [])
      | .error e =>
          let sleeps :=
            match delays.get? attempt with
            | some d => if d ≠ 0 then [d] else []
            | none => []
          let rest := retryGo delays send fuel (attempt + 1) (some e)
          (rest.1, rest.2.1 + 1, sleeps ++ rest.2.2)

/-- `sendWithRetry(channel, message, config)` with the per-attempt send
outcome supplied by `send`: result, send-invocation count, slept delays. -/
def sendWithRetry (delays : List Int) (send : Nat → Except String SendResult) :
    Except String SendResult × Nat × List Int :=
  retryGo delays send (delays.length + 1) 0 none

/-! ## `dispatchAlertmanagerPayload` -/

/-- The `{sent, skipped, failed}` counters. -/
structure Counters where
  sent : Nat
  skipped : Nat
  failed : Nat
deriving Repr, DecidableEq

/-- The dedupe key `` `${fingerprint}:${message.status}:${channel}` ``. -/
def dedupeKeyOf (fingerprint status channel : String) : String :=
  fingerprint ++ ":" ++ status ++ ":" ++ channel

/-- The per-channel body of the dispatch loop: dedupe check, then
`sendWithRetry`, counting the outcome (`.error` is the caught rethrown
delivery failure). `net channel attempt` abstracts the outbound call of
the given attempt. -/
def dispatchChannel (cfg : Config) (net : String → Nat → NetResult) (fingerprint : String)
    (message : Message) (now : Int) (st : Counters × DedupeCache) (channel : String) :
    Counters × DedupeCache :=
  let (counters, cache) := st
  let dedupeKey := dedupeKeyOf fingerprint message.status channel
  let (dropped, cache') := shouldDrop cache dedupeKey now
  if dropped then
    ({ counters with skipped := counters.skipped + 1 }, cache')
  else
    match (sendWithRetry cfg.retryScheduleMs
        (fun attempt => sendByChannel (net channel attempt) channel cfg)).1 with
    | .ok r =>
        if r.skipped then ({ counters with skipped := counters.skipped + 1 }, cache')
        else ({ counters with sent := counters.sent + 1 }, cache')
    | .error _ => ({ counters with failed := counters.failed + 1 }, cache')

/-- The per-alert body of the dispatch loop. -/
def dispatchAlert (cfg : Config) (hash : HashFn) (net : String → Nat → NetResult)
    (payloadStatus : Option String) (now : Int) (st : Counters × DedupeCache) (a : Alert) :
    Counters × DedupeCache :=
  let channels := resolveChannels a cfg
  if channels.isEmpty then
    ({ st.1 with skipped := st.1.skipped + 1 }, st.2)
  else
    let message := buildMessage a payloadStatus
    let fingerprint := resolveFingerprint hash a
    channels.foldl (dispatchChannel cfg net fingerprint message now) st

/-- `dispatchAlertmanagerPayload(payload, config, dedupeCache, logger)`:
throws on a structurally invalid payload, otherwise folds the dispatch
loop over the batch and returns the counters with the final cache.
`Date.now()` inside the loop is abstracted as the ambient clock `now`. -/
def dispatchAlertmanagerPayload (payload : Option Payload) (cfg : Config) (cache : DedupeCache)
    (hash : HashFn) (net : String → Nat → NetResult) (now : Int) :
    Except String (Counters × DedupeCache) :=
  match payload with
  | none => .error "invalid alertmanager payload: alerts must be an array"
  | some p =>
      match p.alerts with
      | none => .error "invalid alertmanager payload: alerts must be an array"
      | some alerts =>
          .ok (alerts.foldl (dispatchAlert cfg hash net p.status now) (⟨0, 0, 0⟩, cache))

/-! ## General lemmas about the string and map models -/

theorem string_data_append (a b : String) : (a ++ b).data = a.data ++ b.data := rfl

theorem string_length_eq (s : String) : s.length = s.data.length := rfl

/-- `jsSlice0` with a cut point between `0` and the length takes exactly
that many characters. -/
theorem jsSlice0_length (s : String) (e : Int) (h0 : 0 ≤ e) (hle : e ≤ (s.data.length : Int)) :
    (jsSlice0 s e).data.length = e.toNat := by
  show (s.data.take (if e < 0 then max ((s.data.length : Int) + e) 0
      else min e (s.data.length : Int)).toNat).length = e.toNat
  rw [if_neg (not_lt.mpr h0), List.length_take, min_eq_left hle]
  exact min_eq_left (by omega)

/-- `truncate` leaves text within the limit unchanged. -/
theorem truncate_of_le (raw : String) (maxLen : Nat) (h : raw.length ≤ maxLen) :
    truncate raw maxLen = raw := by
  unfold truncate
  rw [if_pos]
  exact h

/-- `truncate` of an over-long text has length exactly the limit and
ends with the ellipsis marker. -/
theorem truncate_of_gt (raw : String) (maxLen : Nat) (h3 : 3 ≤ maxLen) (h : maxLen < raw.length) :
    (truncate raw maxLen).length = maxLen ∧ ∃ t, truncate raw maxLen = t ++ "..." := by
  rw [string_length_eq] at h
  unfold truncate
  rw [if_neg (by omega)]
  refine ⟨?_, ⟨jsSlice0 raw ((maxLen : Int) - 3), rfl⟩⟩
  rw [string_length_eq, string_data_append, List.length_append]
  have hslice : (jsSlice0 raw ((maxLen : Int) - 3)).data.length = ((maxLen : Int) - 3).toNat :=
    jsSlice0_length raw _ (by omega) (by omega)
  rw [hslice]
  have : ("..." : String).data.length = 3 := rfl
  omega

/-- `truncate` never exceeds the limit (for limits of at least the
ellipsis length, which both rendering limits are). -/
theorem truncate_length_le (raw : String) (maxLen : Nat) (h3 : 3 ≤ maxLen) :
    (truncate raw maxLen).length ≤ maxLen := by
  by_cases h : raw.length ≤ maxLen
  · rw [truncate_of_le raw maxLen h]; exact h
  · exact le_of_eq (truncate_of_gt raw maxLen h3 (by omega)).1

/-! ## C9 — message truncation bounds -/

/-- C9: For every alert, the rendered `Message` has a title of at most
180 characters and a body of at most 3500 characters; an over-long
title/body is cut to exactly the limit and ends with the ellipsis
marker, and text within the limit is returned unchanged. -/
theorem message_truncation (a : Alert) (ps : Option String) :
    (buildMessage a ps).title.length ≤ 180
    ∧ (buildMessage a ps).body.length ≤ 3500
    ∧ ((rawTitle a ps).length ≤ 180 → (buildMessage a ps).title = rawTitle a ps)
    ∧ (180 < (rawTitle a ps).length →
        (buildMessage a ps).title.length = 180 ∧ ∃ t, (buildMessage a ps).title = t ++ "...")
    ∧ ((rawBody a).length ≤ 3500 → (buildMessage a ps).body = rawBody a)
    ∧ (3500 < (rawBody a).length →
        (buildMessage a ps).body.length = 3500 ∧ ∃ t, (buildMessage a ps).body = t ++ "...") := by
  simp only [buildMessage]
  exact ⟨truncate_length_le _ 180 (by omega),
    truncate_length_le _ 3500 (by omega),
    fun h => truncate_of_le _ 180 h,
    fun h => truncate_of_gt _ 180 (by omega) h,
    fun h => truncate_of_le _ 3500 h,
    fun h => truncate_of_gt _ 3500 (by omega) h⟩

/-- An alert whose `alertname` label makes the raw title overflow the
180-character limit (body stays within its limit). -/
def overlongAlert : Alert :=
  { labels := [("severity", "critical"), ("source", "bot"),
      ("alertname", "AAAAAAAAAAAAAAAAAAAAAAAAAAAAAAAAAAAAAAAAAAAAAAAAAAAAAAAAAAAAAAAAAAAAAAAAAAAAAAAAAAAAAAAAAAAAAAAAAAAAAAAAAAAAAAAAAAAAAAAAAAAAAAAAAAAAAAAAAAAAAAAAAAAAAAAAAAAAAAAAAAAAAAAAAAAAAAAAAAAAAAAAAAAAAAAA")]
    annotations := [("summary", "hi")]
    startsAt := some "2026-01-01T00:00:00Z"
    status := none
    fingerprint := none }

set_option maxRecDepth 8000 in
theorem message_truncation_witness :
    180 < (rawTitle overlongAlert none).length
    ∧ (rawBody overlongAlert).length ≤ 3500
    ∧ (buildMessage overlongAlert none).title.length = 180
    ∧ (∃ t, (buildMessage overlongAlert none).title = t ++ "...")
    ∧ (buildMessage overlongAlert none).body = rawBody overlongAlert :=
  ⟨by decide, by decide,
   ((message_truncation overlongAlert none).2.2.2.1 (by decide)).1,
   ((message_truncation overlongAlert none).2.2.2.1 (by decide)).2,
   (message_truncation overlongAlert none).2.2.2.2.1 (by decide)⟩

/-! ## C10 — muted alerts resolve to no channels -/

/-- C10: whenever `notify_mute` carries a truthy value (case-insensitive
`1`/`true`/`yes`/`on` after trimming) in labels or annotations,
`resolveChannels` returns the empty list, for every configuration. -/
theorem resolveChannels_muted (a : Alert) (cfg : Config) (v : String)
    (hv : getEntry a.labels "notify_mute" = some v ∨ getEntry a.annotations "notify_mute" = some v)
    (hform : jsToLower (jsTrim v) = "1" ∨ jsToLower (jsTrim v) = "true"
      ∨ jsToLower (jsTrim v) = "yes" ∨ jsToLower (jsTrim v) = "on") :
    resolveChannels a cfg = [] := by
  have htru : isTruthy (some v) = true := by
    show (decide (jsToLower (jsTrim v) = "1") || decide (jsToLower (jsTrim v) = "true")
      || decide (jsToLower (jsTrim v) = "yes") || decide (jsToLower (jsTrim v) = "on")) = true
    rcases hform with h | h | h | h <;> rw [h] <;> decide
  unfold resolveChannels
  rcases hv with h | h <;> rw [h] <;> simp [htru]

theorem resolveChannels_muted_witness :
    (getEntry ([("severity", "critical"), ("notify_mute", " YES ")] : Labels) "notify_mute"
        = some " YES "
      ∨ getEntry ([] : Labels) "notify_mute" = some " YES ")
    ∧ jsToLower (jsTrim " YES ") = "yes"
    ∧ resolveChannels
        ⟨[("severity", "critical"), ("notify_mute", " YES ")], [], none, none, none⟩
        ⟨["tg", "wecom", "serverchan"], ⟨["tg", "wecom"], ["wecom"], ["tg"]⟩,
          [1000, 2000, 4000], ⟨"", "", "", ""⟩⟩ = [] :=
  ⟨Or.inl (by decide), by decide,
   resolveChannels_muted _ _ " YES " (Or.inl (by decide)) (Or.inr (Or.inr (Or.inl (by decide))))⟩

/-! ## Retry lemmas -/

theorem list_drop_succ_of_get? {l : List Int} {n : Nat} {d : Int} (h : l.get? n = some d) :
    l.drop n = d :: l.drop (n + 1) := by
  have hn : n < l.length := by
    by_contra hc
    rw [List.get?_eq_none.mpr (by omega)] at h
    exact Option.noConfusion h
  rw [List.drop_eq_getElem_cons hn]
  have hd : l[n] = d := by
    rw [List.get?_eq_getElem?, List.getElem?_eq_getElem hn] at h
    exact Option.some.inj h
  rw [hd]

/-- When every attempt throws, the retry loop started at `attempt` with
`fuel` remaining attempts performs exactly `fuel` sends, sleeps every
remaining scheduled delay, and ends with the error of the last attempt. -/
theorem retryGo_allFail (delays : List Int) (send : Nat → Except String SendResult)
    (err : Nat → String) (hthrow : ∀ i, send i = .error (err i))
    (hpos : ∀ d ∈ delays, 0 < d) :
    ∀ fuel attempt, attempt + fuel = delays.length + 1 → 1 ≤ fuel →
      ∀ lastError, retryGo delays send fuel attempt lastError
        = (.error (err delays.length), fuel, delays.drop attempt) := by
  intro fuel
  induction fuel with
  | zero => intro attempt _ h1 _; omega
  | succ k ih =>
    intro attempt h _ lastError
    simp only [retryGo, hthrow attempt]
    match k, h with
    | 0, h =>
      have hA : attempt = delays.length := by omega
      subst hA
      rw [List.get?_eq_none.mpr (by omega)]
      simp [retryGo, List.drop_length]
    | m + 1, h =>
      have hlt : attempt < delays.length := by omega
      obtain ⟨d, hd⟩ : ∃ d, delays.get? attempt = some d :=
        ⟨delays[attempt], by rw [List.get?_eq_getElem?, List.getElem?_eq_getElem hlt]⟩
      have hdpos : 0 < d := hpos d (List.get?_mem hd)
      have hne : (if d ≠ 0 then [d] else ([] : List Int)) = [d] := if_pos (by omega)
      simp only [hd, hne, ih (attempt + 1) (by omega) (by omega) (some (err attempt)),
        list_drop_succ_of_get? hd, List.singleton_append]

/-! ## C6 — retry exhaustion raises the last error -/

/-- C6: for every retry schedule (of positive delays, as `RetrySchedule`
prescribes) and a send that throws on every invocation, `sendWithRetry`
invokes the send exactly `len(schedule) + 1` times, sleeps exactly the
scheduled delays in order, and raises the error recorded on the last
attempt. -/
theorem sendWithRetry_exhausts (delays : List Int) (send : Nat → Except String SendResult)
    (err : Nat → String) (hthrow : ∀ i, send i = .error (err i))
    (hpos : ∀ d ∈ delays, 0 < d) :
    sendWithRetry delays send = (.error (err delays.length), delays.length + 1, delays) := by
  have h := retryGo_allFail delays send err hthrow hpos (delays.length + 1) 0 (by omega)
    (by omega) none
  simpa [sendWithRetry] using h

theorem sendWithRetry_exhausts_witness :
    (∀ i : Nat, (fun _ : Nat => (Except.error "boom" : Except String SendResult)) i
      = .error "boom")
    ∧ (∀ d ∈ ([1000, 2000] : List Int), 0 < d)
    ∧ sendWithRetry [1000, 2000] (fun _ => .error "boom")
        = (.error "boom", 3, [1000, 2000]) :=
  ⟨fun _ => rfl, by decide,
   sendWithRetry_exhausts [1000, 2000] _ (fun _ => "boom") (fun _ => rfl) (by decide)⟩

/-! ## C8 — skip outcomes return immediately, without retry -/

/-- A first-attempt `ok` result is returned at once: one send, no sleeps. -/
theorem sendWithRetry_first_ok (delays : List Int) (send : Nat → Except String SendResult)
    (r : SendResult) (h : send 0 = .ok r) :
    sendWithRetry delays send = (.ok r, 1, []) := by
  unfold sendWithRetry
  simp only [retryGo, h]

/-- The channel's send reports missing credentials for `channel`. -/
def credsMissingFor (channel : String) (cfg : Config) : Prop :=
  (channel = "tg" ∧ (cfg.channelCreds.tgBotToken = "" ∨ cfg.channelCreds.tgChatId = ""))
  ∨ (channel = "wecom" ∧ cfg.channelCreds.wecomWebhookUrl = "")
  ∨ (channel = "serverchan" ∧ cfg.channelCreds.serverchanSendKey = "")

/-- C8: a missing-credentials send yields a `{skipped:true, reason}`
result which `sendWithRetry` returns on the first attempt with no
retries and no sleeps; a channel identifier outside
{tg, wecom, serverchan} likewise yields a skipped result (with an
"unsupported channel" reason), never an error. -/
theorem sendByChannel_skips (channel : String) (cfg : Config) (delays : List Int)
    (net : String → Nat → NetResult) :
    (credsMissingFor channel cfg →
      ∃ reason, sendWithRetry delays (fun attempt => sendByChannel (net channel attempt) channel cfg)
        = (.ok ⟨true, some reason⟩, 1, []))
    ∧ (channel ∉ VALID_CHANNELS →
      sendWithRetry delays (fun attempt => sendByChannel (net channel attempt) channel cfg)
        = (.ok ⟨true, some ("unsupported channel: " ++ channel)⟩, 1, [])) := by
  constructor
  · rintro (⟨hc, hcred⟩ | ⟨hc, hcred⟩ | ⟨hc, hcred⟩) <;> subst hc
    · refine ⟨"telegram credentials missing", sendWithRetry_first_ok _ _ _ ?_⟩
      unfold sendByChannel sendTg
      rw [if_pos rfl, if_pos hcred]
    · refine ⟨"wecom webhook missing", sendWithRetry_first_ok _ _ _ ?_⟩
      unfold sendByChannel sendWecom
      rw [if_neg (by decide), if_pos rfl, if_pos hcred]
    · refine ⟨"serverchan sendkey missing", sendWithRetry_first_ok _ _ _ ?_⟩
      unfold sendByChannel sendServerchan
      rw [if_neg (by decide), if_neg (by decide), if_pos rfl, if_pos hcred]
  · intro hns
    have hns' : ¬(channel = "tg") ∧ ¬(channel = "wecom") ∧ ¬(channel = "serverchan") := by
      refine ⟨fun h => hns ?_, fun h => hns ?_, fun h => hns ?_⟩ <;> subst h <;> decide
    refine sendWithRetry_first_ok _ _ _ ?_
    unfold sendByChannel
    rw [if_neg hns'.1, if_neg hns'.2.1, if_neg hns'.2.2]

/-- Shared concrete configuration for witnesses (all credentials absent). -/
def wCfg : Config :=
  ⟨["tg", "wecom", "serverchan"], ⟨["tg", "wecom"], ["wecom"], ["tg"]⟩,
    [1000, 2000, 4000], ⟨"", "", "", ""⟩⟩

/-- Shared concrete hash and network oracles for witnesses. -/
def wHash : HashFn := fun _ _ _ => "contenthash"

def wNet : String → Nat → NetResult := fun _ _ => .okSend

theorem sendByChannel_skips_witness :
    (∃ reason, sendWithRetry [1000] (fun attempt => sendByChannel (wNet "tg" attempt) "tg" wCfg)
      = (.ok ⟨true, some reason⟩, 1, []))
    ∧ sendWithRetry [1000] (fun attempt => sendByChannel (wNet "sms" attempt) "sms" wCfg)
      = (.ok ⟨true, some ("unsupported channel: " ++ "sms")⟩, 1, []) :=
  ⟨(sendByChannel_skips "tg" wCfg [1000] wNet).1 (Or.inl ⟨rfl, Or.inl rfl⟩),
   (sendByChannel_skips "sms" wCfg [1000] wNet).2 (by decide)⟩

/-! ## C5 — the coordinator raises iff the payload is structurally invalid -/

/-- C5: `dispatchAlertmanagerPayload` raises exactly when the payload is
absent or its `alerts` field is not an array; for every payload whose
`alerts` is an array it returns the counters, never raising — for every
network behaviour, i.e. no matter how many per-channel deliveries fail
after exhausting retries. -/
theorem dispatch_raises_iff_invalid (payload : Option Payload) (cfg : Config)
    (cache : DedupeCache) (hash : HashFn) (net : String → Nat → NetResult) (now : Int) :
    ((∃ e, dispatchAlertmanagerPayload payload cfg cache hash net now = Except.error e)
      ↔ payload = none ∨ ∃ p, payload = some p ∧ p.alerts = none)
    ∧ (∀ p alerts, payload = some p → p.alerts = some alerts →
        ∃ counters cache', dispatchAlertmanagerPayload payload cfg cache hash net now
          = Except.ok (counters, cache')) := by
  rcases payload with _ | p
  · refine ⟨⟨fun _ => Or.inl rfl,
      fun _ => ⟨"invalid alertmanager payload: alerts must be an array", rfl⟩⟩, ?_⟩
    intro p alerts hp
    exact absurd hp (by simp)
  · rcases hA : p.alerts with _ | alerts
    · refine ⟨⟨fun _ => Or.inr ⟨p, rfl, hA⟩, fun _ => ?_⟩, ?_⟩
      · refine ⟨"invalid alertmanager payload: alerts must be an array", ?_⟩
        simp only [dispatchAlertmanagerPayload, hA]
      · intro p' alerts hp ha
        injection hp with hp
        subst hp
        rw [hA] at ha
        exact Option.noConfusion ha
    · refine ⟨⟨?_, ?_⟩, ?_⟩
      · intro ⟨e, he⟩
        simp only [dispatchAlertmanagerPayload, hA] at he
        exact Except.noConfusion he
      · rintro (h | ⟨p', hp, ha⟩)
        · exact Option.noConfusion h
        · injection hp with hp
          subst hp
          rw [hA] at ha
          exact Option.noConfusion ha
      · intro p' alerts' hp ha
        injection hp with hp
        subst hp
        refine ⟨(alerts.foldl (dispatchAlert cfg hash net p.status now) (⟨0, 0, 0⟩, cache)).1,
          (alerts.foldl (dispatchAlert cfg hash net p.status now) (⟨0, 0, 0⟩, cache)).2, ?_⟩
        simp only [dispatchAlertmanagerPayload, hA]

theorem dispatch_raises_iff_invalid_witness :
    (∃ e, dispatchAlertmanagerPayload (some ⟨none, none⟩) wCfg ⟨45000, 10000, []⟩ wHash wNet 5
      = Except.error e)
    ∧ (∃ counters cache',
        dispatchAlertmanagerPayload
          (some ⟨none, some [⟨[("severity", "critical")], [], none, none, none⟩]⟩)
          wCfg ⟨45000, 10000, []⟩ wHash wNet 5
        = Except.ok (counters, cache')) :=
  ⟨(dispatch_raises_iff_invalid (some ⟨none, none⟩) wCfg ⟨45000, 10000, []⟩ wHash wNet 5).1.mpr
      (Or.inr ⟨⟨none, none⟩, rfl, rfl⟩),
   (dispatch_raises_iff_invalid (some ⟨none, some [⟨[("severity", "critical")], [], none, none, none⟩]⟩)
      wCfg ⟨45000, 10000, []⟩ wHash wNet 5).2 _ _ rfl rfl⟩

/-! ## Map model lemmas -/

theorem mapGet_eq_none_iff {m : List (String × Int)} {k : String} :
    mapGet m k = none ↔ ∀ p ∈ m, p.1 ≠ k := by
  unfold mapGet
  rw [Option.map_eq_none', List.find?_eq_none]
  simp

theorem mapSet_of_get_none {m : List (String × Int)} {k : String} (h : mapGet m k = none)
    (v : Int) : mapSet m k v = m ++ [(k, v)] := by
  induction m with
  | nil => rfl
  | cons p rest ih =>
    have hall := mapGet_eq_none_iff.mp h
    have hp : p.1 ≠ k := hall p (List.mem_cons_self p rest)
    have hrest : mapGet rest k = none :=
      mapGet_eq_none_iff.mpr fun q hq => hall q (List.mem_cons_of_mem p hq)
    simp only [mapSet, if_neg hp, ih hrest, List.cons_append]

theorem mapSet_length_le (m : List (String × Int)) (k : String) (v : Int) :
    (mapSet m k v).length ≤ m.length + 1 := by
  induction m with
  | nil => simp [mapSet]
  | cons p rest ih =>
    by_cases hp : p.1 = k <;> simp [mapSet, hp]
    omega

theorem mapSet_mem {m : List (String × Int)} {k : String} {v : Int} {q : String × Int}
    (hq : q ∈ mapSet m k v) : q = (k, v) ∨ q ∈ m := by
  induction m with
  | nil => simpa [mapSet] using hq
  | cons p rest ih =>
    by_cases hp : p.1 = k
    · simp only [mapSet, if_pos hp] at hq
      rcases List.mem_cons.mp hq with h | h
      · exact Or.inl h
      · exact Or.inr (List.mem_cons_of_mem p h)
    · simp only [mapSet, if_neg hp] at hq
      rcases List.mem_cons.mp hq with h | h
      · exact Or.inr (h ▸ List.mem_cons_self p rest)
      · rcases ih h with h' | h'
        · exact Or.inl h'
        · exact Or.inr (List.mem_cons_of_mem p h')

/-- Looking up a key stored as the final entry, when no earlier entry
uses that key. -/
theorem mapGet_last_unique (pre : List (String × Int)) (K : String) (t : Int)
    (hpre : ∀ p ∈ pre, p.1 ≠ K) : mapGet (pre ++ [(K, t)]) K = some t := by
  induction pre with
  | nil => simp [mapGet]
  | cons p rest ih =>
    have hp : p.1 ≠ K := hpre p (List.mem_cons_self p rest)
    unfold mapGet at ih ⊢
    rw [List.cons_append, List.find?_cons_of_neg]
    · exact ih fun q hq => hpre q (List.mem_cons_of_mem p hq)
    · simp [hp]

/-! ## Eviction lemmas -/

theorem evictOldest_subset (maxEntries : Nat) (l : List (String × Int)) :
    ∀ q ∈ evictOldest maxEntries l, q ∈ l := by
  intro q hq
  unfold evictOldest at hq
  split at hq
  · split at hq
    · split at hq
      · unfold mapDelete at hq
        exact (List.mem_filter.mp hq).1
      · exact hq
    · exact hq
  · exact hq

theorem evictOldest_length (maxEntries : Nat) (l : List (String × Int))
    (hlen : l.length ≤ maxEntries + 1) (hkeys : ∀ p ∈ l, p.1 ≠ "") :
    (evictOldest maxEntries l).length ≤ maxEntries := by
  unfold evictOldest
  by_cases h : l.length > maxEntries
  · rw [if_pos h]
    rcases l with _ | ⟨⟨qk, qv⟩, rest⟩
    · simp at h
    · have hqk : qk ≠ "" := hkeys (qk, qv) (List.mem_cons_self _ rest)
      simp only [List.head?_cons, if_pos hqk]
      unfold mapDelete
      rw [List.filter_cons_of_neg (by simp)]
      have hfl := List.length_filter_le (fun p => decide (p.1 ≠ qk)) rest
      simp only [List.length_cons] at h hlen
      omega
  · rw [if_neg h]
    omega

theorem evictOldest_get_last (maxEntries : Nat) (hmax : 1 ≤ maxEntries)
    (fpre : List (String × Int)) (K : String) (t : Int) (hpre : ∀ p ∈ fpre, p.1 ≠ K) :
    mapGet (evictOldest maxEntries (fpre ++ [(K, t)])) K = some t := by
  unfold evictOldest
  by_cases h : (fpre ++ [(K, t)]).length > maxEntries
  · rw [if_pos h]
    rcases fpre with _ | ⟨⟨qk, qv⟩, rest⟩
    · simp at h
      omega
    · have hqK : qk ≠ K := hpre (qk, qv) (List.mem_cons_self _ rest)
      simp only [List.cons_append, List.head?_cons]
      have hKq : K ≠ qk := hqK.symm
      by_cases hqk : qk ≠ ""
      · rw [if_pos hqk]
        unfold mapDelete
        rw [List.filter_cons_of_neg (by simp), List.filter_append]
        rw [show List.filter (fun p => decide (p.1 ≠ qk)) [(K, t)] = [(K, t)] by simp [hKq]]
        exact mapGet_last_unique _ K t fun p hp =>
          hpre p (List.mem_cons_of_mem _ (List.mem_filter.mp hp).1)
      · rw [if_neg hqk]
        exact mapGet_last_unique _ K t hpre
  · rw [if_neg h]
    exact mapGet_last_unique _ K t hpre

theorem evictOver_subset (maxEntries : Nat) (windowMs now : Int) (m1 : List (String × Int)) :
    ∀ q ∈ evictOver maxEntries windowMs now m1, q ∈ m1 := by
  intro q hq
  unfold evictOver at hq
  split at hq
  · exact (List.mem_filter.mp (evictOldest_subset _ _ q hq)).1
  · exact hq

theorem evictOver_length (maxEntries : Nat) (windowMs now : Int) (m1 : List (String × Int))
    (hlen : m1.length ≤ maxEntries + 1) (hkeys : ∀ p ∈ m1, p.1 ≠ "") :
    (evictOver maxEntries windowMs now m1).length ≤ maxEntries := by
  unfold evictOver
  by_cases h1 : m1.length > maxEntries
  · rw [if_pos h1]
    refine evictOldest_length maxEntries _ ?_ ?_
    · exact le_trans (List.length_filter_le _ _) hlen
    · exact fun p hp => hkeys p (List.mem_filter.mp hp).1
  · rw [if_neg h1]
    omega

theorem evictOver_get_last (maxEntries : Nat) (windowMs now : Int) (hmax : 1 ≤ maxEntries)
    (pre : List (String × Int)) (K : String) (t : Int)
    (hpre : ∀ p ∈ pre, p.1 ≠ K) (hfresh : now - t < windowMs) :
    mapGet (evictOver maxEntries windowMs now (pre ++ [(K, t)])) K = some t := by
  unfold evictOver
  by_cases h1 : (pre ++ [(K, t)]).length > maxEntries
  · rw [if_pos h1, List.filter_append,
      show List.filter (fun p => decide (now - p.2 < windowMs)) [(K, t)] = [(K, t)] by
        simp [hfresh]]
    exact evictOldest_get_last maxEntries hmax _ K t fun p hp => hpre p (List.mem_filter.mp hp).1
  · rw [if_neg h1]
    exact mapGet_last_unique pre K t hpre

/-- Characterization of a dropping call. -/
theorem shouldDrop_hit (c : DedupeCache) (key : String) (now : Int)
    (h : isFreshHit (mapGet c.map key) now c.windowMs = true) :
    shouldDrop c key now = (true, c) := by
  unfold shouldDrop
  rw [h]
  simp

/-- Characterization of an admitting call. -/
theorem shouldDrop_miss (c : DedupeCache) (key : String) (now : Int)
    (h : isFreshHit (mapGet c.map key) now c.windowMs = false) :
    shouldDrop c key now
      = (false, { c with map := evictOver c.maxEntries c.windowMs now (mapSet c.map key now) }) := by
  unfold shouldDrop
  rw [h]
  simp

/-! ## C1 — dedupe window boundary (corrected: requires a nonzero
timestamp, since a stored timestamp `0` fails the JS truthiness guard
`existing && ...`, and a capacity of at least one) -/

/-- C1 counterexample: starting at `t = 0`, the second call inside the
window (at `t + W - 1`) admits instead of dropping, because the stored
timestamp `0` is falsy in `existing && now - existing < this.windowMs`. -/
theorem shouldDrop_boundary_cex :
    (shouldDrop ⟨10, 10000, []⟩ "k" 0).1 = false
    ∧ (shouldDrop (shouldDrop ⟨10, 10000, []⟩ "k" 0).2 "k" 9).1 = false := by
  decide

/-- C1 (amended): for a nonzero start time `t`, a positive window and a
capacity of at least one: a first call for a fresh key admits and
records `lastSeen = t`, a call at `t + W - 1` drops and leaves the cache
unchanged, and a call at `t + W` admits again — the suppression window
is inclusive at its start and exclusive at expiry. -/
theorem shouldDrop_window_boundary (c : DedupeCache) (K : String) (t : Int)
    (hW : 0 < c.windowMs) (ht : t ≠ 0) (hmax : 1 ≤ c.maxEntries)
    (hK : mapGet c.map K = none) :
    (shouldDrop c K t).1 = false
    ∧ mapGet (shouldDrop c K t).2.map K = some t
    ∧ (shouldDrop (shouldDrop c K t).2 K (t + c.windowMs - 1)).1 = true
    ∧ (shouldDrop (shouldDrop c K t).2 K (t + c.windowMs - 1)).2 = (shouldDrop c K t).2
    ∧ (shouldDrop (shouldDrop c K t).2 K (t + c.windowMs)).1 = false := by
  have hmiss : isFreshHit (mapGet c.map K) t c.windowMs = false := by rw [hK]; rfl
  have h1 : shouldDrop c K t
      = (false, { c with map := evictOver c.maxEntries c.windowMs t (c.map ++ [(K, t)]) }) := by
    rw [shouldDrop_miss c K t hmiss, mapSet_of_get_none hK t]
  have hpre : ∀ p ∈ c.map, p.1 ≠ K := mapGet_eq_none_iff.mp hK
  have hget1 : mapGet (shouldDrop c K t).2.map K = some t := by
    rw [h1]
    exact evictOver_get_last c.maxEntries c.windowMs t hmax c.map K t hpre (by omega)
  have hwin : (shouldDrop c K t).2.windowMs = c.windowMs := by rw [h1]
  have hhit2 : isFreshHit (mapGet (shouldDrop c K t).2.map K) (t + c.windowMs - 1)
      (shouldDrop c K t).2.windowMs = true := by
    rw [hget1, hwin]
    have harith : t + c.windowMs - 1 - t < c.windowMs := by omega
    simp [isFreshHit, ht, harith]
  have h2 := shouldDrop_hit (shouldDrop c K t).2 K (t + c.windowMs - 1) hhit2
  have hmiss3 : isFreshHit (mapGet (shouldDrop c K t).2.map K) (t + c.windowMs)
      (shouldDrop c K t).2.windowMs = false := by
    rw [hget1, hwin]
    have harith : ¬(t + c.windowMs - t < c.windowMs) := by omega
    simp [isFreshHit, harith]
  exact ⟨by rw [h1], hget1, by rw [h2], by rw [h2],
    by rw [shouldDrop_miss _ _ _ hmiss3]⟩

theorem shouldDrop_window_boundary_witness :
    ((0 : Int) < 10 ∧ (1 : Int) ≠ 0 ∧ 1 ≤ 10000
      ∧ mapGet ([] : List (String × Int)) "k" = none)
    ∧ (shouldDrop ⟨10, 10000, []⟩ "k" 1).1 = false
    ∧ mapGet (shouldDrop ⟨10, 10000, []⟩ "k" 1).2.map "k" = some 1
    ∧ (shouldDrop (shouldDrop ⟨10, 10000, []⟩ "k" 1).2 "k" 10).1 = true
    ∧ (shouldDrop (shouldDrop ⟨10, 10000, []⟩ "k" 1).2 "k" 10).2
        = (shouldDrop ⟨10, 10000, []⟩ "k" 1).2
    ∧ (shouldDrop (shouldDrop ⟨10, 10000, []⟩ "k" 1).2 "k" 11).1 = false :=
  ⟨⟨by decide, by decide, by decide, by decide⟩,
   shouldDrop_window_boundary ⟨10, 10000, []⟩ "k" 1 (by decide) (by decide) (by decide) (by decide)⟩

/-! ## C2 — capacity bound (corrected: requires all keys non-empty,
since the fallback eviction `if (oldestKey) this.map.delete(oldestKey)`
skips an empty-string oldest key, which is falsy in JS) -/

/-- C2 counterexample: with capacity 1, inserting the empty-string key
and then a fresh second key leaves 2 entries — over the configured
maximum — because the falsy oldest key is never evicted. -/
theorem shouldDrop_capacity_cex :
    (shouldDrop (shouldDrop ⟨10, 1, []⟩ "" 1).2 "a" 2).2.map.length = 2
    ∧ (shouldDrop (shouldDrop ⟨10, 1, []⟩ "" 1).2 "a" 2).2.maxEntries = 1 := by
  decide

/-- C2 (amended): provided every stored key and the inserted key are
non-empty strings, every `shouldDrop` call keeps the entry count within
`maxEntries` (expired entries are purged first; if still over capacity
the single oldest-inserted entry — whose key is then truthy — is
deleted), and the all-keys-non-empty invariant is preserved. -/
theorem shouldDrop_capacity (c : DedupeCache) (key : String) (now : Int)
    (hsize : c.map.length ≤ c.maxEntries)
    (hkeys : ∀ p ∈ c.map, p.1 ≠ "") (hkey : key ≠ "") :
    (shouldDrop c key now).2.map.length ≤ c.maxEntries
    ∧ ∀ p ∈ (shouldDrop c key now).2.map, p.1 ≠ "" := by
  cases hfh : isFreshHit (mapGet c.map key) now c.windowMs with
  | true =>
    rw [shouldDrop_hit c key now hfh]
    exact ⟨hsize, hkeys⟩
  | false =>
    rw [shouldDrop_miss c key now hfh]
    have hm1keys : ∀ p ∈ mapSet c.map key now, p.1 ≠ "" := by
      intro p hp
      rcases mapSet_mem hp with h | h
      · rw [h]
        exact hkey
      · exact hkeys p h
    have hm1len : (mapSet c.map key now).length ≤ c.maxEntries + 1 :=
      le_trans (mapSet_length_le c.map key now) (by omega)
    exact ⟨evictOver_length c.maxEntries c.windowMs now _ hm1len hm1keys,
      fun p hp => hm1keys p (evictOver_subset c.maxEntries c.windowMs now _ p hp)⟩

theorem shouldDrop_capacity_witness :
    ((⟨45000, 1, [("k1", 1)]⟩ : DedupeCache).map.length ≤ 1
      ∧ (∀ p ∈ ([("k1", 1)] : List (String × Int)), p.1 ≠ "")
      ∧ "k2" ≠ "")
    ∧ (shouldDrop ⟨45000, 1, [("k1", 1)]⟩ "k2" 2).2.map.length ≤ 1
    ∧ ∀ p ∈ (shouldDrop ⟨45000, 1, [("k1", 1)]⟩ "k2" 2).2.map, p.1 ≠ "" :=
  ⟨⟨by decide, by decide, by decide⟩,
   shouldDrop_capacity ⟨45000, 1, [("k1", 1)]⟩ "k2" 2 (by decide) (by decide) (by decide)⟩

/-! ## `jsUniq` lemmas -/

theorem jsUniqFuel_nil (fuel : Nat) : jsUniqFuel fuel [] = [] := by
  cases fuel <;> rfl

theorem jsUniqFuel_congr : ∀ (f1 f2 : Nat) (l : List String), l.length ≤ f1 → l.length ≤ f2 →
    jsUniqFuel f1 l = jsUniqFuel f2 l := by
  intro f1
  induction f1 with
  | zero =>
    intro f2 l h1 _
    have hl : l = [] := List.length_eq_zero.mp (by omega)
    subst hl
    rw [jsUniqFuel_nil, jsUniqFuel_nil]
  | succ k ih =>
    intro f2 l h1 h2
    rcases l with _ | ⟨x, xs⟩
    · rw [jsUniqFuel_nil, jsUniqFuel_nil]
    · rcases f2 with _ | m
      · simp at h2
      · simp only [jsUniqFuel]
        have hlen := List.length_filter_le (fun y => decide (y ≠ x)) xs
        simp only [List.length_cons] at h1 h2
        rw [ih m (xs.filter (fun y => y ≠ x)) (by omega) (by omega)]

theorem jsUniqFuel_filter (p : String → Bool) :
    ∀ (fuel : Nat) (l : List String), l.length ≤ fuel →
      jsUniqFuel fuel (l.filter p) = (jsUniqFuel fuel l).filter p := by
  intro fuel
  induction fuel with
  | zero =>
    intro l h
    have hl : l = [] := List.length_eq_zero.mp (by omega)
    subst hl
    simp [jsUniqFuel_nil]
  | succ k ih =>
    intro l h
    rcases l with _ | ⟨x, xs⟩
    · simp [jsUniqFuel_nil]
    · simp only [List.length_cons] at h
      have hxlen := List.length_filter_le (fun y => decide (y ≠ x)) xs
      by_cases hx : p x
      · rw [List.filter_cons_of_pos hx]
        simp only [jsUniqFuel]
        rw [List.filter_cons_of_pos hx]
        congr 1
        rw [show (xs.filter p).filter (fun y => y ≠ x)
              = (xs.filter (fun y => y ≠ x)).filter p by
            rw [List.filter_filter, List.filter_filter]
            exact List.filter_congr fun a _ => Bool.and_comm _ _]
        exact ih (xs.filter (fun y => y ≠ x)) (by omega)
      · rw [List.filter_cons_of_neg hx]
        simp only [jsUniqFuel]
        rw [List.filter_cons_of_neg hx]
        rw [← ih (xs.filter (fun y => y ≠ x)) (by omega)]
        rw [show (xs.filter (fun y => y ≠ x)).filter p = xs.filter p by
            rw [List.filter_filter]
            refine List.filter_congr fun a _ => ?_
            cases hpa : p a
            · simp
            · have hax : a ≠ x := fun he => hx (he ▸ hpa)
              simp [hax]]
        exact jsUniqFuel_congr (k + 1) k (xs.filter p)
          (by have := List.length_filter_le p xs; omega)
          (by have := List.length_filter_le p xs; omega)

theorem jsUniq_filter (p : String → Bool) (l : List String) :
    jsUniq (l.filter p) = (jsUniq l).filter p := by
  unfold jsUniq
  rw [jsUniqFuel_congr (l.filter p).length l.length (l.filter p) le_rfl
    (List.length_filter_le _ _)]
  exact jsUniqFuel_filter p l.length l le_rfl

/-- Restricting to the valid-channel set before deduplicating is
invisible once the result is filtered to an enabled set contained in the
valid set. -/
theorem filter_valid_enabled (l : List String) (enabled : List String)
    (hsub : ∀ ch ∈ enabled, ch ∈ VALID_CHANNELS) :
    (jsUniq (l.filter (fun item => decide (item ∈ VALID_CHANNELS)))).filter
        (fun ch => decide (ch ∈ enabled))
      = (jsUniq l).filter (fun ch => decide (ch ∈ enabled)) := by
  rw [jsUniq_filter, List.filter_filter]
  refine List.filter_congr fun a _ => ?_
  by_cases ha : a ∈ enabled
  · simp [ha, hsub a ha]
  · simp [ha]

/-! ## C3 — channel overrides (corrected: an override all of whose
entries are unrecognized parses to the empty list, and the code then
falls through to the severity default route) -/

/-- C3 counterexample: a `notify_channels` override consisting only of
the unrecognized channel `email` is present, yet the result is the
severity default route (`["tg", "wecom"]`), not the override filtered to
the enabled set (which would be `[]`). -/
theorem resolveChannels_override_cex :
    resolveChannels ⟨[("severity", "critical"), ("notify_channels", "email")], [], none, none, none⟩
        wCfg
      ≠ (parseChannels (jsOrStr
          (getEntry ([("severity", "critical"), ("notify_channels", "email")] : Labels)
            "notify_channels")
          (getEntry ([] : Labels) "notify_channels"))).filter
          (fun ch => decide (ch ∈ wCfg.enabledChannels))
    ∧ resolveChannels ⟨[("severity", "critical"), ("notify_channels", "email")], [], none, none, none⟩
        wCfg = wCfg.routeBySeverity.critical := by
  decide

/-- C3 (amended): for every alert that is not muted and whose
`notify_channels` override parses to a non-empty list of recognized
channels, `resolveChannels` returns exactly the override's comma-token
list, first occurrences kept in order, filtered to the enabled-channel
set — and the severity route table is never consulted (replacing it
changes nothing). An override with no recognized channels instead falls
through to the severity default route. -/
theorem resolveChannels_override (a : Alert) (cfg : Config)
    (hmute : (isTruthy (getEntry a.labels "notify_mute")
      || isTruthy (getEntry a.annotations "notify_mute")) = false)
    (hsub : ∀ ch ∈ cfg.enabledChannels, ch ∈ VALID_CHANNELS)
    (hover : parseChannels (jsOrStr (getEntry a.labels "notify_channels")
      (getEntry a.annotations "notify_channels")) ≠ []) :
    resolveChannels a cfg
      = (jsUniq (parseCsvList (jsOrStr (getEntry a.labels "notify_channels")
          (getEntry a.annotations "notify_channels")))).filter
          (fun ch => decide (ch ∈ cfg.enabledChannels))
    ∧ ∀ rt : RouteTable, resolveChannels a { cfg with routeBySeverity := rt }
        = resolveChannels a cfg := by
  set raw := jsOrStr (getEntry a.labels "notify_channels")
    (getEntry a.annotations "notify_channels") with hraw
  have key : ∀ cfg' : Config, cfg'.enabledChannels = cfg.enabledChannels →
      resolveChannels a cfg'
        = (parseChannels raw).filter (fun ch => decide (ch ∈ cfg.enabledChannels)) := by
    intro cfg' he
    simp only [resolveChannels, ← hraw, hmute, Bool.false_eq_true, if_false]
    rw [if_pos (by simpa [List.length_pos] using hover), he]
  refine ⟨?_, fun rt => by rw [key { cfg with routeBySeverity := rt } rfl, key cfg rfl]⟩
  rw [key cfg rfl]
  rcases hr : raw with _ | s
  · rw [hr] at hover
    simp [parseChannels] at hover
  · by_cases hs : s = ""
    · rw [hr, hs] at hover
      simp [parseChannels] at hover
    · simp only [parseChannels, normalizeChannels, if_neg hs]
      exact filter_valid_enabled _ _ hsub

/-- Witness alert for the override rule: a mixed-case, padded override. -/
def wAlert3 : Alert :=
  ⟨[("severity", "warning"), ("notify_channels", "tg, TG ,serverchan")], [], none, none, none⟩

theorem resolveChannels_override_witness :
    ((isTruthy (getEntry wAlert3.labels "notify_mute")
        || isTruthy (getEntry wAlert3.annotations "notify_mute")) = false
      ∧ (∀ ch ∈ wCfg.enabledChannels, ch ∈ VALID_CHANNELS)
      ∧ parseChannels (jsOrStr (getEntry wAlert3.labels "notify_channels")
          (getEntry wAlert3.annotations "notify_channels")) ≠ [])
    ∧ resolveChannels wAlert3 wCfg
      = (jsUniq (parseCsvList (jsOrStr (getEntry wAlert3.labels "notify_channels")
          (getEntry wAlert3.annotations "notify_channels")))).filter
          (fun ch => decide (ch ∈ wCfg.enabledChannels))
    ∧ resolveChannels wAlert3 { wCfg with routeBySeverity := ⟨[], [], []⟩ }
      = resolveChannels wAlert3 wCfg :=
  ⟨⟨by decide, by decide, by decide⟩,
   (resolveChannels_override wAlert3 wCfg (by decide) (by decide) (by decide)).1,
   (resolveChannels_override wAlert3 wCfg (by decide) (by decide) (by decide)).2 ⟨[], [], []⟩⟩

/-! ## C4 — out-of-range severities (corrected: `normalizeSeverity`
clamps unknown severities to `info`, so the info default route is
returned, not the empty list) -/

/-- C4 counterexample: severity `debug` (outside the valid set) resolves
to the info default route `["tg"]`, not the empty list. -/
theorem resolveChannels_unknown_severity_cex :
    resolveChannels ⟨[("severity", "debug")], [], none, none, none⟩ wCfg = ["tg"]
    ∧ (["tg"] : List String) ≠ [] := by
  decide

/-- C4 (amended): for an unmuted alert with no effective channel
override whose lowercased, trimmed severity is outside
{critical, warning, info}, `resolveChannels` returns the configured
*info* default route (the unknown severity is normalized to `info`
rather than routed to nothing). -/
theorem resolveChannels_unknown_severity (a : Alert) (cfg : Config)
    (hmute : (isTruthy (getEntry a.labels "notify_mute")
      || isTruthy (getEntry a.annotations "notify_mute")) = false)
    (hover : parseChannels (jsOrStr (getEntry a.labels "notify_channels")
      (getEntry a.annotations "notify_channels")) = [])
    (hsev : ∀ v, getEntry a.labels "severity" = some v →
      jsTrim (jsToLower v) ∉ (["critical", "warning", "info"] : List String)) :
    resolveChannels a cfg = cfg.routeBySeverity.info := by
  have hnorm : normalizeSeverity (getEntry a.labels "severity") = "info" := by
    rcases hg : getEntry a.labels "severity" with _ | v
    · decide
    · by_cases hv : v = ""
      · subst hv
        decide
      · have hmem := hsev v hg
        have hne : ¬(jsTrim (jsToLower v) = "critical" ∨ jsTrim (jsToLower v) = "warning"
            ∨ jsTrim (jsToLower v) = "info") := by
          intro hor
          rcases hor with h | h | h <;> exact hmem (by simp [h])
        simp only [normalizeSeverity]
        rw [show jsOrStrD (some v) "info" = v by simp [jsOrStrD, hv], if_neg hne]
  simp only [resolveChannels, hmute, Bool.false_eq_true, if_false, hover, List.length_nil]
  rw [if_neg (by omega), hnorm]
  rfl

theorem resolveChannels_unknown_severity_witness :
    ((isTruthy (getEntry ([("severity", "debug")] : Labels) "notify_mute")
        || isTruthy (getEntry ([] : Labels) "notify_mute")) = false
      ∧ parseChannels (jsOrStr (getEntry ([("severity", "debug")] : Labels) "notify_channels")
          (getEntry ([] : Labels) "notify_channels")) = []
      ∧ jsTrim (jsToLower "debug") ∉ (["critical", "warning", "info"] : List String))
    ∧ resolveChannels ⟨[("severity", "debug")], [], none, none, none⟩ wCfg
      = wCfg.routeBySeverity.info :=
  ⟨⟨by decide, by decide, by decide⟩,
   resolveChannels_unknown_severity ⟨[("severity", "debug")], [], none, none, none⟩ wCfg
     (by decide) (by decide)
     (by
       intro v hv
       have hg : getEntry ([("severity", "debug")] : Labels) "severity" = some "debug" := by
         decide
       rw [hg] at hv
       have hvd : v = "debug" := (Option.some.inj hv).symm
       subst hvd
       decide)⟩

/-! ## C7 — dedupe key construction and fingerprint resolution -/

/-- The dedupe key computed in the dispatch loop for one alert and
channel: resolved fingerprint, rendered message status and destination
channel joined with `:` (`` `${fingerprint}:${message.status}:${channel}` ``). -/
def dedupeKeyFor (hash : HashFn) (a : Alert) (channel : String) (payloadStatus : Option String) :
    String :=
  dedupeKeyOf (resolveFingerprint hash a) (buildMessage a payloadStatus).status channel

theorem jsTruthyStr_false {o : Option String} (h : jsTruthyStr o = false) :
    o = none ∨ o = some "" := by
  rcases o with _ | s
  · exact Or.inl rfl
  · right
    simp [jsTruthyStr] at h
    rw [h]

theorem jsOrStr_falsy {o : Option String} (b : Option String) (h : jsTruthyStr o = false) :
    jsOrStr o b = b := by
  rcases jsTruthyStr_false h with h' | h' <;> subst h' <;> simp [jsOrStr]

/-- Keys differing only in the status component differ. -/
theorem dedupeKeyOf_status_ne (fp c : String) :
    dedupeKeyOf fp "firing" c ≠ dedupeKeyOf fp "resolved" c := by
  intro h
  have hd := congrArg String.data h
  simp only [dedupeKeyOf, string_data_append, List.append_assoc] at hd
  have hc := List.append_cancel_left hd
  simp at hc

/-- C7: the dedupe key is `fingerprint:status:channel`; the fingerprint
is the explicit `fingerprint` field when truthy, else
`labels.notify_fingerprint` when truthy, else the content hash of
`(labels, annotations, startsAt)`; and the firing- and resolved-state
keys of the same alert and channel always differ, so a firing-state
entry can never suppress a resolved-state delivery. -/
theorem dedupe_key_resolution (hash : HashFn) (a : Alert) (channel : String) (ps : Option String) :
    (∀ f, a.fingerprint = some f → f ≠ "" → resolveFingerprint hash a = f)
    ∧ (jsTruthyStr a.fingerprint = false →
        ∀ g, getEntry a.labels "notify_fingerprint" = some g → g ≠ "" →
          resolveFingerprint hash a = g)
    ∧ (jsTruthyStr a.fingerprint = false →
        jsTruthyStr (getEntry a.labels "notify_fingerprint") = false →
        resolveFingerprint hash a = hash a.labels a.annotations (jsOrStrD a.startsAt ""))
    ∧ dedupeKeyFor hash a channel ps
        = dedupeKeyOf (resolveFingerprint hash a) (buildMessage a ps).status channel
    ∧ dedupeKeyFor hash { a with status := some "firing" } channel ps
        ≠ dedupeKeyFor hash { a with status := some "resolved" } channel ps := by
  refine ⟨?_, ?_, ?_, rfl, ?_⟩
  · intro f hf hne
    simp [resolveFingerprint, hf, jsOrStr, jsOrStrD, hne]
  · intro hfp g hg hne
    simp [resolveFingerprint, jsOrStr_falsy _ hfp, hg, jsOrStrD, hne]
  · intro hfp hnf
    rw [resolveFingerprint, jsOrStr_falsy _ hfp]
    rcases jsTruthyStr_false hnf with h | h <;> rw [h] <;> simp [jsOrStrD, fallbackFingerprint]
  · have hs1 : (buildMessage { a with status := some "firing" } ps).status = "firing" := rfl
    have hs2 : (buildMessage { a with status := some "resolved" } ps).status = "resolved" := rfl
    intro h
    unfold dedupeKeyFor at h
    rw [hs1, hs2] at h
    exact dedupeKeyOf_status_ne _ channel h

/-- Witness alert carrying an explicit fingerprint. -/
def wAlert7 : Alert := ⟨[("severity", "critical")], [], some "2026-01-01T00:00:00Z", none, some "fp1"⟩

theorem dedupe_key_resolution_witness :
    resolveFingerprint wHash wAlert7 = "fp1"
    ∧ dedupeKeyFor wHash { wAlert7 with status := some "firing" } "tg" none
        ≠ dedupeKeyFor wHash { wAlert7 with status := some "resolved" } "tg" none :=
  ⟨(dedupe_key_resolution wHash wAlert7 "tg" none).1 "fp1" rfl (by decide),
   (dedupe_key_resolution wHash wAlert7 "tg" none).2.2.2.2⟩

end NG
